import Mathlib

/-!
# Claudex server-side session runtime: shallow embedding

A shallow embedding of the session runtime of the claudex repository
(package `session` and package `ws`), with theorems settling the frozen
claims about the state tracker, the scrollback buffer, the UTF-8 read
loop, persistence, stop, and write/resize on pane-less sessions.

Modelling conventions, fixed once for the whole file:

* Go byte strings are `List ℕ` (each element a byte value).  Go's
  `string` indexing and slicing are byte-based, which these lists mirror.
* `time.Time` instants and `time.Duration` values are `ℤ` nanoseconds.
  The zero `time.Time` (used by `IsZero`) is the integer `0`.
* `float64` confidences are `ℕ` in thousandths: the source constants
  0.95, 0.90, 0.85, 0.80, 0.75, 0.70, 0.65, 0.60, 0.50, 0.40, 0.30 become
  950, 900, 850, 800, 750, 700, 650, 600, 500, 400, 300.  The only
  arithmetic the source ever performs on confidences is the average
  `(contextConf + ioConf) / 2`, and every confidence the source produces
  is a multiple of 50, so the average is exact in this scale; every
  comparison against the source's thresholds (0.8, 0.7, 0.6, 0.5) is
  decided identically.
* `StateTracker.outputRate` (`float64` bytes/second, always assigned as
  `float64(outputBytes) / 2.0`) is stored doubled, as the integer number
  of bytes seen in the 2-second window, so that the stored value stays in
  `ℤ`; the single comparison `outputRate > 1000` of the source becomes
  `outputRate > 2000` here.
-/

namespace Claudex

/-- Status of a session/pane (Go `type Status string` with its seven constants). -/
inductive Status where
  | idle
  | shell
  | thinking
  | executing
  | waitingInput
  | error
  | stopped
deriving DecidableEq, Repr

/-- Timeout configuration (Go `ThinkingTimeout = 60 * time.Second`), in nanoseconds. -/
def thinkingTimeout : ℤ := 60000000000

/-- Go `ExecutingTimeout = 5 * time.Minute`, in nanoseconds. -/
def executingTimeout : ℤ := 300000000000

/-- Go `NoOutputTimeout = 30 * time.Second`, in nanoseconds. -/
def noOutputTimeout : ℤ := 30000000000

/-- Go `InputToThinkingDelay = 500 * time.Millisecond`, in nanoseconds. -/
def inputToThinkingDelay : ℤ := 500000000

/-- Go `IOWindowDuration = 2 * time.Second`, in nanoseconds. -/
def ioWindowDuration : ℤ := 2000000000

/-! ## Byte-string helpers (Go `splitLines`, `trimSpace`, `containsString`) -/

/-- Go `trimSpace` trims `' '`, `'\t'`, `'\r'`, `'\n'` at both ends. -/
def isSpaceByte (b : ℕ) : Bool := b = 32 || b = 9 || b = 13 || b = 10

/-- Go `trimSpace(s)`: advance `start` over space bytes, retreat `end` over
space bytes, return the middle slice. -/
def trimSpace (s : List ℕ) : List ℕ :=
  ((s.dropWhile isSpaceByte).reverse.dropWhile isSpaceByte).reverse

/-- `hasPrefixB s sub`: the first `sub.length` bytes of `s` equal `sub`
(the slice comparison `s[i:i+len(substr)] == substr` at `i = 0`). -/
def hasPrefixB : List ℕ → List ℕ → Bool
  | _, [] => true
  | [], _ :: _ => false
  | a :: s, b :: t => a == b && hasPrefixB s t

/-- Go `containsString(s, substr)` / `findSubstring`: scan every start index
for an occurrence of `sub` as a contiguous slice of `s`. -/
def containsBytes : List ℕ → List ℕ → Bool
  | s, sub =>
    if hasPrefixB s sub then true
    else
      match s with
      | [] => false
      | _ :: s' => containsBytes s' sub

/-! ## Per-line feature detectors

The Go detectors compare against string literals; the non-ASCII literals
are written out here as their UTF-8 bytes (`─` = E2 94 80, `│` = E2 94 82,
`╭` = E2 95 AD, `╰` = E2 95 B0, `✓` = E2 9C 93, `❯` = E2 9D AF, and the
braille spinner code points U+2807..U+283C = E2 A0 xx).  Go
`containsRune` iterates decoded runes; for these three-byte sequences a
byte-level substring search decides the same predicate, because a byte
`0xE2` can only start a three-byte rune. -/

/-- The ten braille spinner characters of Go `detectSpinner`
(`⠋⠙⠹⠸⠼⠴⠦⠧⠇⠏`), as UTF-8 byte sequences. -/
def spinnerPatterns : List (List ℕ) :=
  [[0xE2, 0xA0, 0x8B], [0xE2, 0xA0, 0x99], [0xE2, 0xA0, 0xB9],
   [0xE2, 0xA0, 0xB8], [0xE2, 0xA0, 0xBC], [0xE2, 0xA0, 0xB4],
   [0xE2, 0xA0, 0xA6], [0xE2, 0xA0, 0xA7], [0xE2, 0xA0, 0x87],
   [0xE2, 0xA0, 0x8F]]

/-- Go `detectSpinner(line)`. -/
def detectSpinner (line : List ℕ) : Bool :=
  spinnerPatterns.any (fun p => containsBytes line p)

/-- The tool-marker catalog of Go `detectToolPattern`; comments give the
original literal. -/
def toolPatterns : List (List ℕ) :=
  [[82, 101, 97, 100, 105, 110, 103],                -- "Reading"
   [87, 114, 105, 116, 105, 110, 103],               -- "Writing"
   [69, 120, 101, 99, 117, 116, 105, 110, 103],      -- "Executing"
   [83, 101, 97, 114, 99, 104, 105, 110, 103],       -- "Searching"
   [0xE2, 0x94, 0x80, 0xE2, 0x94, 0x80, 32, 69, 100, 105, 116],       -- "── Edit"
   [0xE2, 0x94, 0x80, 0xE2, 0x94, 0x80, 32, 66, 97, 115, 104],        -- "── Bash"
   [0xE2, 0x94, 0x80, 0xE2, 0x94, 0x80, 32, 82, 101, 97, 100],        -- "── Read"
   [0xE2, 0x94, 0x80, 0xE2, 0x94, 0x80, 32, 71, 108, 111, 98],        -- "── Glob"
   [0xE2, 0x94, 0x80, 0xE2, 0x94, 0x80, 32, 71, 114, 101, 112],       -- "── Grep"
   [0xE2, 0x94, 0x80, 0xE2, 0x94, 0x80, 32, 84, 97, 115, 107],        -- "── Task"
   [0xE2, 0x94, 0x80, 0xE2, 0x94, 0x80, 32, 87, 114, 105, 116, 101],  -- "── Write"
   [0xE2, 0x94, 0x80, 0xE2, 0x94, 0x80, 32, 87, 101, 98, 70, 101, 116, 99, 104],  -- "── WebFetch"
   [0xE2, 0x94, 0x80, 0xE2, 0x94, 0x80, 32, 87, 101, 98, 83, 101, 97, 114, 99, 104],  -- "── WebSearch"
   [0xE2, 0x94, 0x80, 0xE2, 0x94, 0x80, 32, 76, 83, 80],              -- "── LSP"
   [0xE2, 0x9C, 0x93, 32, 69, 100, 105, 116],        -- "✓ Edit"
   [0xE2, 0x9C, 0x93, 32, 66, 97, 115, 104],         -- "✓ Bash"
   [0xE2, 0x9C, 0x93, 32, 82, 101, 97, 100],         -- "✓ Read"
   [0xE2, 0x9C, 0x93, 32, 87, 114, 105, 116, 101],   -- "✓ Write"
   [0xE2, 0xA0, 0x8B, 32, 69, 100, 105, 116],        -- "⠋ Edit"
   [0xE2, 0xA0, 0x8B, 32, 66, 97, 115, 104],         -- "⠋ Bash"
   [0xE2, 0xA0, 0x8B, 32, 82, 101, 97, 100],         -- "⠋ Read"
   [0xE2, 0xA0, 0x8B, 32, 84, 97, 115, 107]]         -- "⠋ Task"

/-- Go `detectToolPattern(line)`. -/
def detectToolPattern (line : List ℕ) : Bool :=
  toolPatterns.any (fun p => containsBytes line p)

/-- The agent-UI catalog of Go `detectClaudeUI`. -/
def claudePatterns : List (List ℕ) :=
  [[0xE2, 0x95, 0xAD, 0xE2, 0x94, 0x80],             -- "╭─"
   [0xE2, 0x95, 0xB0, 0xE2, 0x94, 0x80],             -- "╰─"
   [0xE2, 0x94, 0x82, 32],                           -- "│ "
   [67, 108, 97, 117, 100, 101, 32, 67, 111, 100, 101],  -- "Claude Code"
   [99, 108, 97, 117, 100, 101, 62],                 -- "claude>"
   [99, 111, 115, 116, 58],                          -- "cost:"
   [116, 111, 107, 101, 110, 115, 58],               -- "tokens:"
   [84, 111, 111, 108, 32, 82, 101, 115, 117, 108, 116],  -- "Tool Result"
   [84, 111, 111, 108, 32, 67, 97, 108, 108]]        -- "Tool Call"

/-- Go `detectClaudeUI(line)`. -/
def detectClaudeUI (line : List ℕ) : Bool :=
  claudePatterns.any (fun p => containsBytes line p)

/-- Bytes of `"Claude"`. -/
def bytesClaude : List ℕ := [67, 108, 97, 117, 100, 101]

/-- Bytes of `"❯"`. -/
def bytesHeavyArrow : List ℕ := [0xE2, 0x9D, 0xAF]

/-- Bytes of `"│"`. -/
def bytesVertBar : List ℕ := [0xE2, 0x94, 0x82]

/-- Go `detectShellPrompt(line)`: trims, then tests the last byte against
`$`/`%`/`#` (0x24/0x25/0x23), then the `❯`-without-`Claude` rule, then the
`@` with `:` (0x3A) or `~` (0x7E) rule. -/
def detectShellPrompt (line : List ℕ) : Bool :=
  let l := trimSpace line
  if l.length = 0 then false
  else
    let lastChar := l.getLast?.getD 0
    if lastChar = 0x24 || lastChar = 0x25 || lastChar = 0x23 then true
    else if containsBytes l bytesHeavyArrow && !containsBytes l bytesClaude then true
    else if containsBytes l [0x40] && (containsBytes l [0x3A] || containsBytes l [0x7E]) then
      (if !containsBytes l bytesClaude && !containsBytes l bytesVertBar then true else false)
    else false

/-- Go `looksLikeClaudePrompt(line)`: after trimming, a trailing `"> "`
(0x3E 0x20), or a trailing `'>'` (0x3E), or `"> "` together with `"│"`. -/
def looksLikeClaudePrompt (line : List ℕ) : Bool :=
  let l := trimSpace line
  if 2 ≤ l.length && l.drop (l.length - 2) == [0x3E, 0x20] then true
  else if 1 ≤ l.length && l.getLast?.getD 0 == 0x3E then true
  else containsBytes l [0x3E, 0x20] && containsBytes l bytesVertBar

/-! ## State tracker data -/

/-- Go `LineEntry`: one line with features computed at ingest. -/
structure LineEntry where
  content : List ℕ
  timestamp : ℤ
  hasSpinner : Bool
  hasToolPattern : Bool
  hasClaudeUI : Bool
  hasShellPrompt : Bool
deriving DecidableEq, Repr

/-- A default `LineEntry` (used only as the `getD` fallback for the
always-in-bounds index `len(lines)-1` of the source). -/
def emptyLineEntry : LineEntry :=
  { content := [], timestamp := 0, hasSpinner := false, hasToolPattern := false,
    hasClaudeUI := false, hasShellPrompt := false }

/-- The entry Go `parseLines` builds for one line. -/
def lineEntryOf (content : List ℕ) (ts : ℤ) : LineEntry :=
  { content := content, timestamp := ts,
    hasSpinner := detectSpinner content,
    hasToolPattern := detectToolPattern content,
    hasClaudeUI := detectClaudeUI content,
    hasShellPrompt := detectShellPrompt content }

/-- Go `StateTracker`.  `confidence` is in thousandths; `outputRate` is the
doubled rate (see the header comment). -/
structure StateTracker where
  lastInputTime : ℤ
  lastOutputTime : ℤ
  stateChangedAt : ℤ
  confidence : ℕ
  outputBytes : ℤ
  outputWindowStart : ℤ
  outputRate : ℤ
  lines : List LineEntry
  maxLines : ℕ
  claudeActive : Bool
  claudeStartedAt : ℤ
deriving DecidableEq, Repr

/-- Go `newStateTracker()` at wall-clock instant `now`. -/
def newStateTracker (now : ℤ) : StateTracker :=
  { lastInputTime := 0, lastOutputTime := now, stateChangedAt := now,
    confidence := 1000, outputBytes := 0, outputWindowStart := now,
    outputRate := 0, lines := [], maxLines := 50, claudeActive := false,
    claudeStartedAt := 0 }

/-- The status-and-tracker part of a Go `Pane` that the detection code
reads and writes. -/
structure PaneSt where
  status : Status
  tracker : StateTracker
deriving DecidableEq, Repr

/-! ## State analysis (Go `analyzeState` and its two sub-analyses) -/

/-- Go `getRecentLines(n)`: all lines if fewer than `n`, else the last `n`. -/
def getRecentLines (t : StateTracker) (n : ℕ) : List LineEntry :=
  if t.lines.length ≤ n then t.lines else t.lines.drop (t.lines.length - n)

/-- Go's `lastClaudeUI` / `lastShellPrompt` scan: the index of the last
line satisfying `f`, or `-1`.  (`for i, line := range lines` updating the
index on every hit.) -/
def lastIndexWhere (f : LineEntry → Bool) (ls : List LineEntry) : ℤ :=
  (ls.foldl (fun (st : ℤ × ℤ) l => (st.1 + 1, if f l then st.1 else st.2)) (0, -1)).2

/-- Go `analyzeContext`.  Returns the verdict and the tracker as mutated
(`claudeActive` may be set).  Counts are `filter.length` for the source's
increment-per-hit counters. -/
def analyzeContext (p : PaneSt) : (Status × ℕ) × StateTracker :=
  let t := p.tracker
  if t.lines = [] then
    if t.claudeActive then ((Status.waitingInput, 500), t)
    else ((Status.shell, 300), t)
  else
    let spinnerCount := (t.lines.filter (fun l => l.hasSpinner)).length
    let toolCount := (t.lines.filter (fun l => l.hasToolPattern)).length
    let claudeUICount := (t.lines.filter (fun l => l.hasClaudeUI)).length
    let shellPromptCount := (t.lines.filter (fun l => l.hasShellPrompt)).length
    let lastClaudeUI := lastIndexWhere (fun l => l.hasClaudeUI) t.lines
    let lastShellPrompt := lastIndexWhere (fun l => l.hasShellPrompt) t.lines
    let lastLine := t.lines.getLast?.getD emptyLineEntry
    if 0 < spinnerCount then
      ((Status.thinking, 850), { t with claudeActive := true })
    else if 0 < toolCount then
      ((Status.executing, 800), { t with claudeActive := true })
    else if t.claudeActive then
      -- CRITICAL (source comment): if Claude is active, NEVER go back to shell
      if 0 < claudeUICount ∧ looksLikeClaudePrompt lastLine.content = true then
        ((Status.waitingInput, 850), t)
      else
        ((Status.waitingInput, 700), t)
    else if 0 < claudeUICount ∧ lastShellPrompt < lastClaudeUI then
      if looksLikeClaudePrompt lastLine.content = true then
        ((Status.waitingInput, 850), { t with claudeActive := true })
      else
        ((Status.waitingInput, 700), { t with claudeActive := true })
    else if 0 < shellPromptCount ∧ lastClaudeUI < lastShellPrompt then
      ((Status.shell, 800), t)
    else
      ((Status.shell, 500), t)

/-- Go `analyzeIOBehavior`, reading the (possibly context-mutated) tracker
`t` and the pane status `st` at instant `now`.  `outputRate > 1000`
becomes `outputRate > 2000` in the doubled scale. -/
def analyzeIOBehavior (t : StateTracker) (st : Status) (now : ℤ) : Status × ℕ :=
  let timeSinceInput := now - t.lastInputTime
  let timeSinceOutput := now - t.lastOutputTime
  if t.outputRate > 2000 then (Status.executing, 750)
  else if t.lastInputTime ≠ 0 ∧ timeSinceInput < 10000000000 ∧
      t.lastOutputTime < t.lastInputTime ∧ t.claudeActive = true then
    (Status.thinking, 650)
  else if timeSinceOutput > 5000000000 ∧ t.claudeActive = true then
    (Status.waitingInput, 600)
  else (st, 300)

/-- Go `analyzeState`: the hybrid cascade.  Returns the verdict and the
tracker as mutated by this call (`claudeActive` may be set by the spinner
or tool branch, or inside `analyzeContext`). -/
def analyzeState (p : PaneSt) (now : ℤ) : (Status × ℕ) × StateTracker :=
  let t := p.tracker
  let recentLines := getRecentLines t 5
  if recentLines.any (fun l => l.hasSpinner) then
    ((Status.thinking, 950), { t with claudeActive := true })
  else if recentLines.any (fun l => l.hasToolPattern) then
    ((Status.executing, 900), { t with claudeActive := true })
  else
    let ctx := analyzeContext p
    if 800 ≤ ctx.1.2 then (ctx.1, ctx.2)
    else
      let io := analyzeIOBehavior ctx.2 p.status now
      if 700 ≤ io.2 then (io, ctx.2)
      else if 500 ≤ ctx.1.2 ∧ 500 ≤ io.2 ∧ ctx.1.1 = io.1 then
        ((ctx.1.1, (ctx.1.2 + io.2) / 2), ctx.2)
      else if 500 ≤ ctx.1.2 then (ctx.1, ctx.2)
      else ((p.status, 400), ctx.2)

/-- The context verdict of `analyzeState` step 3 (first component of
`analyzeContext`). -/
def ctxVerdict (p : PaneSt) : Status × ℕ := (analyzeContext p).1

/-- The tracker after `analyzeContext` has run (its `claudeActive`
mutation applied). -/
def ctxTracker (p : PaneSt) : StateTracker := (analyzeContext p).2

/-- The I/O-behavior verdict of `analyzeState` step 4, computed on the
context-mutated tracker exactly as in the source's call order. -/
def ioVerdict (p : PaneSt) (now : ℤ) : Status × ℕ :=
  analyzeIOBehavior (ctxTracker p) p.status now

/-! ## Per-output status update (Go `detectStatus`) -/

/-- Go `isStrongTransition(from, to)`. -/
def isStrongTransition (f t : Status) : Bool :=
  if f = Status.shell ∧ (t = Status.thinking ∨ t = Status.executing ∨ t = Status.waitingInput) then
    true
  else if (f = Status.thinking ∨ f = Status.executing) ∧ t = Status.waitingInput then
    true
  else false

/-- The status-update decision at the end of Go `detectStatus`: change the
status only if it differs and the confidence clears 0.60 or the transition
is strong; on a change also stamp `stateChangedAt` and store the
confidence; if the computed status equals the current one, store only the
confidence. -/
def applyVerdict (old : Status) (t : StateTracker) (ns : Status) (conf : ℕ) (now : ℤ) :
    PaneSt :=
  if ns ≠ old then
    if 600 ≤ conf ∨ isStrongTransition old ns = true then
      ⟨ns, { t with stateChangedAt := now, confidence := conf }⟩
    else ⟨old, t⟩
  else ⟨old, { t with confidence := conf }⟩

/-- Go `updateIORate(bytes, now)`.  `IOWindowDuration.Seconds()` is 2.0;
in the doubled scale the assignment `outputRate = float64(outputBytes)/2`
stores `outputBytes` itself. -/
def updateIORate (t : StateTracker) (bytes : ℤ) (now : ℤ) : StateTracker :=
  let t1 :=
    if now - t.outputWindowStart > ioWindowDuration then
      { t with outputRate := t.outputBytes, outputBytes := 0, outputWindowStart := now }
    else t
  { t1 with outputBytes := t1.outputBytes + bytes }

/-- Go `addLinesToBuffer(lines, now)`: stamp, append, and drop the excess
beyond `maxLines` from the front. -/
def addLinesToBuffer (t : StateTracker) (newLines : List LineEntry) (now : ℤ) : StateTracker :=
  let ls := t.lines ++ newLines.map (fun l => { l with timestamp := now })
  if ls.length > t.maxLines then
    { t with lines := ls.drop (ls.length - t.maxLines) }
  else
    { t with lines := ls }

/-- Go `detectStatus(data)` minus logging and the asynchronous `onStatus`
callback: stamp `lastOutputTime`, update the I/O rate with the chunk
length, ingest the parsed lines, run `analyzeState`, and apply the
status-update decision. -/
def detectStep (p : PaneSt) (dataLen : ℤ) (newLines : List LineEntry) (now : ℤ) : PaneSt :=
  let t0 := { p.tracker with lastOutputTime := now }
  let t1 := updateIORate t0 dataLen now
  let t2 := addLinesToBuffer t1 newLines now
  let r := analyzeState ⟨p.status, t2⟩ now
  applyVerdict p.status r.2 r.1.1 r.1.2 now

/-! ## Timeout monitor (Go `checkTimeouts`) -/

/-- Go `checkTimeouts()` at instant `now`: the switch on the current
status, then the `stateChangedAt` stamp when the status changed.
(`p.tracker.lastInputTime.IsZero()` is `lastInputTime = 0`;
`lastInputTime.After(lastOutputTime)` is a strict comparison.) -/
def checkTimeouts (p : PaneSt) (now : ℤ) : PaneSt :=
  if p.status = Status.stopped ∨ p.status = Status.error ∨ p.status = Status.idle then p
  else
    let t := p.tracker
    let timeSinceOutput := now - t.lastOutputTime
    let timeSinceInput := now - t.lastInputTime
    let timeSinceStateChange := now - t.stateChangedAt
    let r : Status × StateTracker :=
      match p.status with
      | Status.thinking =>
        if timeSinceOutput > thinkingTimeout then
          (Status.waitingInput, { t with confidence := 600 })
        else (p.status, t)
      | Status.executing =>
        if timeSinceStateChange > executingTimeout then
          (Status.waitingInput, { t with confidence := 500 })
        else (p.status, t)
      | Status.shell | Status.waitingInput =>
        if t.lastInputTime ≠ 0 ∧ timeSinceInput > inputToThinkingDelay ∧
            timeSinceInput < 5000000000 ∧ t.lastOutputTime < t.lastInputTime then
          if t.claudeActive then (Status.thinking, { t with confidence := 700 })
          else (p.status, t)
        else (p.status, t)
      | _ => (p.status, t)
    if r.1 ≠ p.status then ⟨r.1, { r.2 with stateChangedAt := now }⟩ else ⟨r.1, r.2⟩

/-! ## Scrollback buffer (Go `readOutput` append + cap, `GetScrollback`) -/

/-- The 1 MiB cap of the in-memory scrollback (`1024*1024`). -/
def scrollbackLimit : ℕ := 1024 * 1024

/-- The scrollback update in Go `readOutput`:
`scrollback = append(scrollback, data...)`, then if the length exceeds
1 MiB keep only the last 1 MiB. -/
def appendScrollback (old chunk : List ℕ) : List ℕ :=
  let s := old ++ chunk
  if s.length > scrollbackLimit then s.drop (s.length - scrollbackLimit) else s

/-- The last `n` bytes of `l` (all of `l` when `n ≥ l.length`); used to
state tail preservation. -/
def lastBytes (n : ℕ) (l : List ℕ) : List ℕ := l.drop (l.length - n)

/-! ## UTF-8 boundary trimming (Go `findLastValidUTF8` and the read loop) -/

/-- The expected sequence length Go computes from a start byte inside
`findLastValidUTF8` (0 when the byte matches none of the three
start-byte masks). -/
def expLen (b : ℕ) : ℕ :=
  if b &&& 0xE0 = 0xC0 then 2
  else if b &&& 0xF0 = 0xE0 then 3
  else if b &&& 0xF8 = 0xF0 then 4
  else 0

/-- Go `findLastValidUTF8(data)`: scan the last `i = 1, 2, 3` bytes
(`data[n-i]`, here `data.reverse.getD (i-1)`); an ASCII byte or a
complete-looking start byte ends the scan with `n`, an incomplete start
byte yields `n - i`, a continuation byte moves `i` on (the loop guard is
`i <= 3 && i <= n`). -/
def findLastValidUTF8 (data : List ℕ) : ℕ :=
  let n := data.length
  if n = 0 then 0
  else
    let r := data.reverse
    let b1 := r.getD 0 0
    if b1 &&& 0x80 = 0 then n
    else if b1 &&& 0xC0 = 0xC0 then (if 1 < expLen b1 then n - 1 else n)
    else if 2 ≤ n then
      let b2 := r.getD 1 0
      if b2 &&& 0x80 = 0 then n
      else if b2 &&& 0xC0 = 0xC0 then (if 2 < expLen b2 then n - 2 else n)
      else if 3 ≤ n then
        let b3 := r.getD 2 0
        if b3 &&& 0x80 = 0 then n
        else if b3 &&& 0xC0 = 0xC0 then (if 3 < expLen b3 then n - 3 else n)
        else n
      else n
    else n

/-- One iteration of the read loop's emission step (Go `readOutput` after
a successful read): combine the pending bytes with the new chunk, trim at
the last complete UTF-8 boundary, emit the front, carry the tail. -/
def emitChunk (pending chunk : List ℕ) : List ℕ × List ℕ :=
  let data := pending ++ chunk
  let v := findLastValidUTF8 data
  (data.take v, data.drop v)

/-- The read loop over a list of PTY reads: returns the emitted chunks in
order and the final pending carry.  (The source skips the `on_output`
call when the trimmed chunk is empty; an empty entry here corresponds to
no emission.) -/
def processReads (pending : List ℕ) : List (List ℕ) → List (List ℕ) × List ℕ
  | [] => ([], pending)
  | c :: rest =>
    let e := emitChunk pending c
    let r := processReads e.2 rest
    (e.1 :: r.1, r.2)

/-- The sequence length a leading byte announces: 1 for ASCII, `expLen`
otherwise (0 for continuation bytes and the invalid range F8..FF). -/
def seqLen (b : ℕ) : ℕ := if b &&& 0x80 = 0 then 1 else expLen b

/-- A UTF-8 continuation byte (`10xxxxxx`). -/
def IsCont (b : ℕ) : Prop := b &&& 0xC0 = 0x80

instance (b : ℕ) : Decidable (IsCont b) := by unfold IsCont; infer_instance

/-- A complete UTF-8 sequence: a leading byte announcing its own length,
followed by exactly that many continuation bytes. -/
def ValidSeq (s : List ℕ) : Prop :=
  ∃ b cs, s = b :: cs ∧ seqLen b = cs.length + 1 ∧ ∀ c ∈ cs, IsCont c

/-- A nonempty proper front part of a UTF-8 sequence: a leading byte whose
announced length has not been reached yet. -/
def PartialSeq (p : List ℕ) : Prop :=
  ∃ b cs, p = b :: cs ∧ cs.length + 1 < seqLen b ∧ ∀ c ∈ cs, IsCont c

/-- A byte string that is a concatenation of complete UTF-8 sequences
(ends on a boundary). -/
def UTF8Chunked (d : List ℕ) : Prop :=
  ∃ C : List (List ℕ), (∀ s ∈ C, ValidSeq s) ∧ d = C.flatten

/-- A byte string that is a front part of a valid UTF-8 stream: complete
sequences followed by at most one partial sequence. -/
def UTF8Sliceable (d : List ℕ) : Prop :=
  ∃ (C : List (List ℕ)) (P : List ℕ),
    (∀ s ∈ C, ValidSeq s) ∧ (P = [] ∨ PartialSeq P) ∧ d = C.flatten ++ P

/-- The claim's notion of a chunk ending in an incomplete multi-byte
sequence, written from the claim's words: some suffix of length `i ≤ 3`
consists of a start byte (`11xxxxxx`) announcing `e > i` bytes followed by
`i - 1` continuation bytes. -/
def endsIncompleteSpec (l : List ℕ) : Bool :=
  let r := l.reverse
  let b1 := r.getD 0 0
  let b2 := r.getD 1 0
  let b3 := r.getD 2 0
  (decide (1 ≤ l.length) && decide (b1 &&& 0xC0 = 0xC0) && decide (1 < expLen b1)) ||
  (decide (2 ≤ l.length) && decide (b1 &&& 0xC0 = 0x80) && decide (b2 &&& 0xC0 = 0xC0) &&
    decide (2 < expLen b2)) ||
  (decide (3 ≤ l.length) && decide (b1 &&& 0xC0 = 0x80) && decide (b2 &&& 0xC0 = 0x80) &&
    decide (b3 &&& 0xC0 = 0xC0) && decide (3 < expLen b3))

/-! ## Session metadata persistence (Go `saveSession` / `loadSessions`)

The JSON marshal/unmarshal of `SessionInfo` and the RFC 3339
format/parse of the three timestamps are field-for-field and are not
re-modelled; the model works at the level of the `SessionInfo` struct the
source marshals.  File names are modelled by their stem (the glob
`*.json` fixes the extension), so the reserved file is the stem
`"client-state"`. -/

/-- Go `Position3D`. -/
structure Position3D where
  q : ℤ
  r : ℤ
  layer : ℤ
deriving DecidableEq, Repr

/-- Session metadata (`map[string]any` modelled as key/value pairs; the
source copies the map wholesale on save and load). -/
abbrev Meta := List (String × String)

/-- The persisted fields of a Go `Session` (the fields `saveSession`
reads and `loadSessions` writes), plus `lastClaudeSessionID`, which is a
`Session` field but absent from `SessionInfo`. -/
structure GoSession where
  id : String
  name : String
  status : Status
  color : String
  position : Option Position3D
  metadata : Meta
  createdAt : ℤ
  updatedAt : ℤ
  lastInputAt : ℤ
  directory : String
  parentID : String
  worktreePath : String
  branch : String
  robotModel : String
  robotColor : String
  robotAccessory : String
  hexQ : Option ℤ
  hexR : Option ℤ
  lastClaudeSessionID : String
deriving DecidableEq, Repr

/-- Go `SessionInfo`, the serialized representation (note: no
`LastClaudeSessionID` field). -/
structure SessionInfo where
  id : String
  name : String
  status : Status
  color : String
  position : Option Position3D
  metadata : Meta
  createdAt : ℤ
  updatedAt : ℤ
  lastInputAt : ℤ
  directory : String
  parentID : String
  worktreePath : String
  branch : String
  robotModel : String
  robotColor : String
  robotAccessory : String
  hexQ : Option ℤ
  hexR : Option ℤ
deriving DecidableEq, Repr

/-- The `SessionInfo` Go `saveSession` builds from a session (the struct
it then marshals to `<storage>/<id>.json`). -/
def saveSessionInfo (s : GoSession) : SessionInfo :=
  { id := s.id, name := s.name, status := s.status, color := s.color,
    position := s.position, metadata := s.metadata,
    createdAt := s.createdAt, updatedAt := s.updatedAt, lastInputAt := s.lastInputAt,
    directory := s.directory, parentID := s.parentID,
    worktreePath := s.worktreePath, branch := s.branch,
    robotModel := s.robotModel, robotColor := s.robotColor,
    robotAccessory := s.robotAccessory, hexQ := s.hexQ, hexR := s.hexR }

/-- The `Session` Go `loadSessions` constructs from a parsed
`SessionInfo`: every field copied, except the status, which is reset to
*idle*, and `LastClaudeSessionID`, which is not in `SessionInfo` and so
stays at its zero value. -/
def sessionFromInfo (info : SessionInfo) : GoSession :=
  { id := info.id, name := info.name,
    status := Status.idle,  -- "Reset to idle on load (including error states)"
    color := info.color, position := info.position, metadata := info.metadata,
    createdAt := info.createdAt, updatedAt := info.updatedAt,
    lastInputAt := info.lastInputAt, directory := info.directory,
    parentID := info.parentID, worktreePath := info.worktreePath,
    branch := info.branch, robotModel := info.robotModel,
    robotColor := info.robotColor, robotAccessory := info.robotAccessory,
    hexQ := info.hexQ, hexR := info.hexR, lastClaudeSessionID := "" }

/-- Go `loadSessions` over the globbed directory listing: each entry is a
file stem together with the result of reading-and-unmarshalling it
(`none` for a read or parse failure, which the source skips with
`continue`); the stem `"client-state"` is skipped unconditionally. -/
def loadSessionFiles (files : List (String × Option SessionInfo)) : List GoSession :=
  files.filterMap (fun f =>
    if f.1 = "client-state" then none
    else
      match f.2 with
      | none => none
      | some info => some (sessionFromInfo info))

/-! ## Stop (Go `Pane.Stop`, `Session.Stop`, `ws.handleStop`) -/

/-- The runtime state of a pane that `Stop` touches: the child process,
the PTY handle, the `done` channel, and the status. -/
structure PaneRun where
  status : Status
  ptyOpen : Bool
  childAlive : Bool
  doneClosed : Bool
deriving DecidableEq, Repr

/-- Go `Pane.Stop()`: kill the child, close the PTY, set *stopped*, and
close `done` unless already closed (the `select` guard).  Killing a dead
process and closing a closed descriptor return ignored errors, so the
resulting state does not depend on the starting state. -/
def paneStop (_p : PaneRun) : PaneRun :=
  { status := Status.stopped, ptyOpen := false, childAlive := false, doneClosed := true }

/-- The part of a Go `Session` that `Session.Stop` touches. -/
structure SessRun where
  status : Status
  panes : List PaneRun
deriving DecidableEq, Repr

/-- Go `Session.Stop()`: stop every pane, set the session status to
*stopped*. -/
def sessStop (s : SessRun) : SessRun :=
  { status := Status.stopped, panes := s.panes.map paneStop }

/-- The handler state Go `ws.handleStop` reads and writes: the target
session and the ordered log of status broadcasts the subscribers
receive. -/
structure WsState where
  sess : SessRun
  broadcasts : List Status
deriving DecidableEq, Repr

/-- Go `ws.handleStop`: stop the session, then unconditionally broadcast
`StatusStopped` to the subscribers.  (The cwd refresh and scrollback save
that precede the stop touch only the filesystem, modelled separately.) -/
def handleStop (st : WsState) : WsState :=
  { sess := sessStop st.sess, broadcasts := st.broadcasts ++ [Status.stopped] }

/-! ## Scrollback persistence (Go `Manager.SaveScrollback`) -/

/-- The storage directory as a map from file name to contents. -/
def FS := String → Option (List ℕ)

/-- `os.WriteFile` into the storage-directory model. -/
def fsWrite (fs : FS) (name : String) (data : List ℕ) : FS :=
  fun k => if k = name then some data else fs k

/-- Go `Manager.SaveScrollback(s)`: take the scrollback snapshot; if it is
empty return `nil` (success) without touching the directory; otherwise
write it to `<id>.scrollback`.  The `Bool` is success of the returned
`error`. -/
def saveScrollback (fs : FS) (id : String) (scrollback : List ℕ) : FS × Bool :=
  if scrollback = [] then (fs, true)
  else (fsWrite fs (id ++ ".scrollback") scrollback, true)

/-! ## Write/resize on a session without panes
(Go `Session.Write`, `Session.Resize`, `Session.GetMainPane`,
`Pane.Write`, `Pane.Resize`) -/

/-- The error kinds surfaced here (`os.ErrClosed`). -/
inductive GoErr where
  | closed
deriving DecidableEq, Repr

/-- The part of a pane `Pane.Write`/`Pane.Resize` read: whether a PTY is
attached. -/
structure PanePort where
  ptyOpen : Bool
deriving DecidableEq, Repr

/-- Go `Pane.Write(data)`: with no PTY, `(0, os.ErrClosed)`; otherwise the
PTY write succeeds with the full length. -/
def paneWrite (p : PanePort) (data : List ℕ) : ℕ × Option GoErr :=
  if p.ptyOpen = false then (0, some GoErr.closed) else (data.length, none)

/-- Go `Pane.Resize`: `os.ErrClosed` with no PTY, else success. -/
def paneResize (p : PanePort) : Option GoErr :=
  if p.ptyOpen = false then some GoErr.closed else none

/-- The pane map and layout-root pane id of a session (`PaneLayout == nil`
is `none`; `PaneLayout.PaneID` may be the empty string). -/
structure SessPort where
  panes : List (String × PanePort)
  layoutPaneID : Option String
deriving Repr

/-- A Go map lookup `s.panes[pid]` (returns the zero value `nil` when the
key is absent). -/
def lookupPane (ps : List (String × PanePort)) (k : String) : Option PanePort :=
  (ps.find? (fun e => e.1 = k)).map (fun e => e.2)

/-- Go `Session.GetMainPane()`: the pane the layout root names (possibly
`nil` when the map has no such key), else any pane from the map (modelled
as the first), else `nil`. -/
def getMainPane (s : SessPort) : Option PanePort :=
  match s.layoutPaneID with
  | some pid => if pid ≠ "" then lookupPane s.panes pid else s.panes.head?.map (fun e => e.2)
  | none => s.panes.head?.map (fun e => e.2)

/-- Go `Session.Write(data)`: with no main pane, `return 0, nil`
(success); otherwise delegate to the pane.  (The `SetLastInputAt` stamp
touches only a timestamp field.) -/
def sessionWrite (s : SessPort) (data : List ℕ) : ℕ × Option GoErr :=
  match getMainPane s with
  | none => (0, none)
  | some p => paneWrite p data

/-- Go `Session.Resize`: with no main pane, `return nil`; otherwise
delegate. -/
def sessionResize (s : SessPort) : Option GoErr :=
  match getMainPane s with
  | none => none
  | some p => paneResize p

/-! ## Concrete instances (used by witnesses and counterexamples) -/

/-- A pane whose most recent line carries a spinner. -/
def spinnerPane : PaneSt :=
  ⟨Status.shell,
   { newStateTracker 0 with
       lines := [{ emptyLineEntry with hasSpinner := true }] }⟩

/-- An agent-active pane whose last line is `"abc>"` (0x61 0x62 0x63 0x3E):
prompt-shaped, but carrying no agent-UI marker. -/
def promptNoUIPane : PaneSt :=
  ⟨Status.waitingInput,
   { newStateTracker 0 with
       claudeActive := true
       lines := [lineEntryOf [0x61, 0x62, 0x63, 0x3E] 0] }⟩

/-- An agent-active pane whose last line is `"~$ "` (0x7E 0x24 0x20), a
shell-prompt-shaped line. -/
def dollarPane : PaneSt :=
  ⟨Status.waitingInput,
   { newStateTracker 0 with
       claudeActive := true
       lines := [lineEntryOf [0x7E, 0x24, 0x20] 0] }⟩

/-- A *waiting_input* pane with stored confidence 0.90 and one featureless
line (`"hi"`), on which `analyzeState` computes the verdict
(*shell*, 0.50). -/
def lowConfPane : PaneSt :=
  ⟨Status.waitingInput,
   { newStateTracker 0 with
       confidence := 900
       lines := [lineEntryOf [0x68, 0x69] 0] }⟩

/-- A *thinking* pane whose last output was at instant 0. -/
def staleThinkingPane : PaneSt := ⟨Status.thinking, newStateTracker 0⟩

/-- A fully populated session for the persistence round-trip. -/
def sampleSession : GoSession :=
  { id := "abc12345", name := "A", status := Status.thinking, color := "#6366f1",
    position := some ⟨1, 2, 3⟩, metadata := [("k", "v")], createdAt := 10, updatedAt := 20,
    lastInputAt := 30, directory := "/tmp", parentID := "p", worktreePath := "w",
    branch := "exp", robotModel := "m", robotColor := "c", robotAccessory := "hat",
    hexQ := some 4, hexR := some 5, lastClaudeSessionID := "cs" }

/-- A handler state with one running session and an empty broadcast log. -/
def runningWsState : WsState :=
  ⟨⟨Status.shell, [⟨Status.shell, true, true, false⟩]⟩, []⟩

/-- A session with a layout root naming `"main"` but an empty pane map
(the state after `Reset`). -/
def paneLessSession : SessPort := ⟨[], some "main"⟩

/-! # Theorems

Shared helper lemmas first, then one theorem per claim (with its witness
or counterexample where required). -/

/-- Absorption for nested bit masks: if `m &&& k = k` then masking with
`m` first does not change a subsequent masking with `k`. -/
theorem land_absorb (b m k : ℕ) (h : m &&& k = k) : b &&& m &&& k = b &&& k := by
  rw [Nat.land_assoc, h]

/-- A byte matching the two-byte start mask `110xxxxx` has its top two
bits set. -/
theorem start_of_mask2 {b : ℕ} (h : b &&& 0xE0 = 0xC0) : b &&& 0xC0 = 0xC0 := by
  have ha := land_absorb b 0xE0 0xC0 (by decide)
  rw [← ha, h]
  decide

/-- A byte matching the three-byte start mask `1110xxxx` has its top two
bits set. -/
theorem start_of_mask3 {b : ℕ} (h : b &&& 0xF0 = 0xE0) : b &&& 0xC0 = 0xC0 := by
  have ha := land_absorb b 0xF0 0xC0 (by decide)
  rw [← ha, h]
  decide

/-- A byte matching the four-byte start mask `11110xxx` has its top two
bits set. -/
theorem start_of_mask4 {b : ℕ} (h : b &&& 0xF8 = 0xF0) : b &&& 0xC0 = 0xC0 := by
  have ha := land_absorb b 0xF8 0xC0 (by decide)
  rw [← ha, h]
  decide

/-- A byte whose top two bits are set is not ASCII. -/
theorem start_not_ascii {b : ℕ} (h : b &&& 0xC0 = 0xC0) : ¬ b &&& 0x80 = 0 := by
  have ha := land_absorb b 0xC0 0x80 (by decide)
  rw [← ha, h]
  decide

/-- A byte whose top two bits are set is not a continuation byte. -/
theorem start_not_cont {b : ℕ} (h : b &&& 0xC0 = 0xC0) : ¬ b &&& 0xC0 = 0x80 := by
  rw [h]; decide

/-- A continuation byte is not ASCII. -/
theorem cont_not_ascii {c : ℕ} (h : c &&& 0xC0 = 0x80) : ¬ c &&& 0x80 = 0 := by
  have ha := land_absorb c 0xC0 0x80 (by decide)
  rw [← ha, h]
  decide

/-- A continuation byte does not have both top bits set. -/
theorem cont_not_start {c : ℕ} (h : c &&& 0xC0 = 0x80) : ¬ c &&& 0xC0 = 0xC0 := by
  rw [h]; decide

/-- An ASCII byte does not have both top bits set. -/
theorem ascii_not_start {b : ℕ} (h : b &&& 0x80 = 0) : ¬ b &&& 0xC0 = 0xC0 := by
  intro hc
  exact start_not_ascii hc h

/-- An ASCII byte is not a continuation byte. -/
theorem ascii_not_cont {b : ℕ} (h : b &&& 0x80 = 0) : ¬ b &&& 0xC0 = 0x80 := by
  intro hc
  exact cont_not_ascii hc h

/-- A sequence length of 1 means the lead byte is ASCII. -/
theorem seqLen_one_ascii {b : ℕ} (h : seqLen b = 1) : b &&& 0x80 = 0 := by
  unfold seqLen expLen at h
  split_ifs at h <;> first | assumption | omega

/-- A sequence length of 2 comes from the `110xxxxx` mask. -/
theorem seqLen_two_mask {b : ℕ} (h : seqLen b = 2) : b &&& 0xE0 = 0xC0 := by
  unfold seqLen expLen at h
  split_ifs at h <;> first | assumption | omega

/-- A sequence length of 3 comes from the `1110xxxx` mask. -/
theorem seqLen_three_mask {b : ℕ} (h : seqLen b = 3) : b &&& 0xF0 = 0xE0 := by
  unfold seqLen expLen at h
  split_ifs at h <;> first | assumption | omega

/-- A sequence length of 4 comes from the `11110xxx` mask. -/
theorem seqLen_four_mask {b : ℕ} (h : seqLen b = 4) : b &&& 0xF8 = 0xF0 := by
  unfold seqLen expLen at h
  split_ifs at h <;> first | assumption | omega

/-- `seqLen` never exceeds 4. -/
theorem seqLen_le_four (b : ℕ) : seqLen b ≤ 4 := by
  unfold seqLen expLen
  split_ifs <;> omega

/-- `expLen` agrees with `seqLen` on non-ASCII bytes. -/
theorem expLen_eq_seqLen {b : ℕ} (h : ¬ b &&& 0x80 = 0) : expLen b = seqLen b := by
  unfold seqLen
  rw [if_neg h]

/-- A lead byte announcing at least two bytes has both top bits set. -/
theorem seqLen_ge_two_start {b : ℕ} (h : 2 ≤ seqLen b) : b &&& 0xC0 = 0xC0 := by
  unfold seqLen expLen at h
  split_ifs at h with h1 h2 h3 h4
  · omega
  · exact start_of_mask2 h2
  · exact start_of_mask3 h3
  · exact start_of_mask4 h4
  · omega

/-- `findLastValidUTF8` keeps everything when the data ends in an ASCII
byte. -/
theorem find_end_ascii (F : List ℕ) (b : ℕ) (hb : b &&& 0x80 = 0) :
    findLastValidUTF8 (F ++ [b]) = (F ++ [b]).length := by
  simp only [findLastValidUTF8, List.reverse_append, List.reverse_cons, List.reverse_nil,
    List.nil_append, List.cons_append, List.getD_cons_zero, List.getD_cons_succ,
    List.length_append, List.length_cons, List.length_nil]
  rw [if_neg (by omega), if_pos hb]

/-- `findLastValidUTF8` keeps everything when the data ends in a complete
two-byte sequence. -/
theorem find_end_seq2 (F : List ℕ) (b c : ℕ) (hb : b &&& 0xE0 = 0xC0)
    (hc : c &&& 0xC0 = 0x80) :
    findLastValidUTF8 (F ++ [b, c]) = (F ++ [b, c]).length := by
  have he : expLen b = 2 := by unfold expLen; rw [if_pos hb]
  simp only [findLastValidUTF8, List.reverse_append, List.reverse_cons, List.reverse_nil,
    List.nil_append, List.cons_append, List.getD_cons_zero, List.getD_cons_succ,
    List.length_append, List.length_cons, List.length_nil]
  rw [if_neg (by omega), if_neg (cont_not_ascii hc), if_neg (cont_not_start hc),
    if_pos (by omega), if_neg (start_not_ascii (start_of_mask2 hb)),
    if_pos (start_of_mask2 hb), if_neg (by omega)]

/-- `findLastValidUTF8` keeps everything when the data ends in a complete
three-byte sequence. -/
theorem find_end_seq3 (F : List ℕ) (b c1 c2 : ℕ) (hb : b &&& 0xF0 = 0xE0)
    (hc1 : c1 &&& 0xC0 = 0x80) (hc2 : c2 &&& 0xC0 = 0x80) :
    findLastValidUTF8 (F ++ [b, c1, c2]) = (F ++ [b, c1, c2]).length := by
  have he : expLen b = 3 := by
    unfold expLen
    rw [if_neg, if_pos hb]
    intro h2
    have := start_of_mask2 h2
    have h80 : b &&& 0xF0 &&& 0x20 = b &&& 0x20 := land_absorb b 0xF0 0x20 (by decide)
    have h20 : b &&& 0xE0 &&& 0x20 = b &&& 0x20 := land_absorb b 0xE0 0x20 (by decide)
    rw [h2] at h20
    rw [hb] at h80
    rw [show (0xC0 &&& 0x20 : ℕ) = 0 from by decide] at h20
    rw [show (0xE0 &&& 0x20 : ℕ) = 0x20 from by decide] at h80
    omega
  simp only [findLastValidUTF8, List.reverse_append, List.reverse_cons, List.reverse_nil,
    List.nil_append, List.cons_append, List.getD_cons_zero, List.getD_cons_succ,
    List.length_append, List.length_cons, List.length_nil]
  rw [if_neg (by omega), if_neg (cont_not_ascii hc2), if_neg (cont_not_start hc2),
    if_pos (by omega), if_neg (cont_not_ascii hc1), if_neg (cont_not_start hc1),
    if_pos (by omega), if_neg (start_not_ascii (start_of_mask3 hb)),
    if_pos (start_of_mask3 hb), if_neg (by omega)]

/-- `findLastValidUTF8` keeps everything when the data ends in a complete
four-byte sequence (the scan sees only its three continuation bytes). -/
theorem find_end_seq4 (F : List ℕ) (b c1 c2 c3 : ℕ)
    (hc1 : c1 &&& 0xC0 = 0x80) (hc2 : c2 &&& 0xC0 = 0x80) (hc3 : c3 &&& 0xC0 = 0x80) :
    findLastValidUTF8 (F ++ [b, c1, c2, c3]) = (F ++ [b, c1, c2, c3]).length := by
  simp only [findLastValidUTF8, List.reverse_append, List.reverse_cons, List.reverse_nil,
    List.nil_append, List.cons_append, List.getD_cons_zero, List.getD_cons_succ,
    List.length_append, List.length_cons, List.length_nil]
  rw [if_neg (by omega), if_neg (cont_not_ascii hc3), if_neg (cont_not_start hc3),
    if_pos (by omega), if_neg (cont_not_ascii hc2), if_neg (cont_not_start hc2),
    if_pos (by omega), if_neg (cont_not_ascii hc1), if_neg (cont_not_start hc1)]

/-- `findLastValidUTF8` trims a lone trailing start byte announcing more
than one byte. -/
theorem find_part1 (F : List ℕ) (b : ℕ) (hb : b &&& 0xC0 = 0xC0) (he : 1 < expLen b) :
    findLastValidUTF8 (F ++ [b]) = F.length := by
  simp only [findLastValidUTF8, List.reverse_append, List.reverse_cons, List.reverse_nil,
    List.nil_append, List.cons_append, List.getD_cons_zero, List.getD_cons_succ,
    List.length_append, List.length_cons, List.length_nil]
  rw [if_neg (by omega), if_neg (start_not_ascii hb), if_pos hb, if_pos he]
  omega

/-- `findLastValidUTF8` trims a trailing start byte announcing more than
two bytes followed by one continuation byte. -/
theorem find_part2 (F : List ℕ) (b c1 : ℕ) (hb : b &&& 0xC0 = 0xC0)
    (he : 2 < expLen b) (hc1 : c1 &&& 0xC0 = 0x80) :
    findLastValidUTF8 (F ++ [b, c1]) = F.length := by
  simp only [findLastValidUTF8, List.reverse_append, List.reverse_cons, List.reverse_nil,
    List.nil_append, List.cons_append, List.getD_cons_zero, List.getD_cons_succ,
    List.length_append, List.length_cons, List.length_nil]
  rw [if_neg (by omega), if_neg (cont_not_ascii hc1), if_neg (cont_not_start hc1),
    if_pos (by omega), if_neg (start_not_ascii hb), if_pos hb, if_pos he]
  omega

/-- `findLastValidUTF8` trims a trailing start byte announcing four bytes
followed by two continuation bytes. -/
theorem find_part3 (F : List ℕ) (b c1 c2 : ℕ) (hb : b &&& 0xC0 = 0xC0)
    (he : 3 < expLen b) (hc1 : c1 &&& 0xC0 = 0x80) (hc2 : c2 &&& 0xC0 = 0x80) :
    findLastValidUTF8 (F ++ [b, c1, c2]) = F.length := by
  simp only [findLastValidUTF8, List.reverse_append, List.reverse_cons, List.reverse_nil,
    List.nil_append, List.cons_append, List.getD_cons_zero, List.getD_cons_succ,
    List.length_append, List.length_cons, List.length_nil]
  rw [if_neg (by omega), if_neg (cont_not_ascii hc2), if_neg (cont_not_start hc2),
    if_pos (by omega), if_neg (cont_not_ascii hc1), if_neg (cont_not_start hc1),
    if_pos (by omega), if_neg (start_not_ascii hb), if_pos hb, if_pos he]
  omega

/-- The `1110xxxx` mask gives `expLen` 3 (it excludes the `110xxxxx`
mask, which would contradict bit 0x20). -/
theorem expLen_of_mask3 {b : ℕ} (hb : b &&& 0xF0 = 0xE0) : expLen b = 3 := by
  unfold expLen
  rw [if_neg, if_pos hb]
  intro h2
  have h80 : b &&& 0xF0 &&& 0x20 = b &&& 0x20 := land_absorb b 0xF0 0x20 (by decide)
  have h20 : b &&& 0xE0 &&& 0x20 = b &&& 0x20 := land_absorb b 0xE0 0x20 (by decide)
  rw [h2] at h20
  rw [hb] at h80
  rw [show (0xC0 &&& 0x20 : ℕ) = 0 from by decide] at h20
  rw [show (0xE0 &&& 0x20 : ℕ) = 0x20 from by decide] at h80
  omega

/-- The `110xxxxx` mask gives `expLen` 2. -/
theorem expLen_of_mask2 {b : ℕ} (hb : b &&& 0xE0 = 0xC0) : expLen b = 2 := by
  unfold expLen
  rw [if_pos hb]

/-- `findLastValidUTF8` on data made of complete sequences keeps
everything. -/
theorem findLast_on_chunked (F : List ℕ) (hF : UTF8Chunked F) :
    findLastValidUTF8 F = F.length := by
  obtain ⟨C, hC, rfl⟩ := hF
  induction C using List.reverseRecOn with
  | nil => simp [findLastValidUTF8]
  | append_singleton C₀ s _ =>
    have hs : ValidSeq s := hC s (by simp)
    obtain ⟨b, cs, rfl, hlen, hcont⟩ := hs
    have hfl : (C₀ ++ [b :: cs]).flatten = C₀.flatten ++ (b :: cs) := by simp
    rw [hfl]
    have hsl4 := seqLen_le_four b
    rcases cs with _ | ⟨c1, _ | ⟨c2, _ | ⟨c3, _ | ⟨c4, rest⟩⟩⟩⟩
    · exact find_end_ascii _ b (seqLen_one_ascii (by simpa using hlen))
    · exact find_end_seq2 _ b c1 (seqLen_two_mask (by simpa using hlen))
        (hcont c1 (by simp))
    · exact find_end_seq3 _ b c1 c2 (seqLen_three_mask (by simpa using hlen))
        (hcont c1 (by simp)) (hcont c2 (by simp))
    · exact find_end_seq4 _ b c1 c2 c3 (hcont c1 (by simp)) (hcont c2 (by simp))
        (hcont c3 (by simp))
    · exfalso
      simp [List.length_cons] at hlen
      omega

/-- `findLastValidUTF8` on data ending in a partial sequence trims exactly
that partial sequence (whatever precedes it). -/
theorem findLast_on_partial (F P : List ℕ) (hP : PartialSeq P) :
    findLastValidUTF8 (F ++ P) = F.length := by
  obtain ⟨b, cs, rfl, hlt, hcont⟩ := hP
  have hsl4 := seqLen_le_four b
  have hstart : b &&& 0xC0 = 0xC0 := seqLen_ge_two_start (by omega)
  have hexp : expLen b = seqLen b := expLen_eq_seqLen (start_not_ascii hstart)
  rcases cs with _ | ⟨c1, _ | ⟨c2, _ | ⟨c3, rest⟩⟩⟩
  · exact find_part1 F b hstart (by simp at hlt; omega)
  · exact find_part2 F b c1 hstart (by simp at hlt; omega) (hcont c1 (by simp))
  · exact find_part3 F b c1 c2 hstart (by simp at hlt; omega)
      (hcont c1 (by simp)) (hcont c2 (by simp))
  · exfalso
    simp [List.length_cons] at hlt
    omega

/-- The empty byte string is sliceable. -/
theorem sliceable_nil : UTF8Sliceable [] := ⟨[], [], by simp, Or.inl rfl, by simp⟩

/-- Auxiliary induction for prefix closure of `UTF8Sliceable`. -/
theorem sliceable_take_aux (C : List (List ℕ)) :
    ∀ (P a b : List ℕ), (∀ s ∈ C, ValidSeq s) → (P = [] ∨ PartialSeq P) →
      a ++ b = C.flatten ++ P → UTF8Sliceable a := by
  induction C with
  | nil =>
    intro P a b _ hP heq
    rw [List.flatten_nil, List.nil_append] at heq
    rcases hP with rfl | ⟨hd, cs, rfl, hlt, hcont⟩
    · obtain ⟨rfl, rfl⟩ := List.append_eq_nil.mp heq
      exact sliceable_nil
    · rcases a with _ | ⟨x, a'⟩
      · exact sliceable_nil
      · rw [List.cons_append] at heq
        injection heq with hxh hab
        subst hxh
        refine ⟨[], x :: a', by simp, Or.inr ⟨x, a', rfl, ?_, ?_⟩, by simp⟩
        · have hle : a'.length ≤ cs.length := by
            rw [← hab]
            simp
          omega
        · intro c hc
          exact hcont c (by rw [← hab]; exact List.mem_append_left _ hc)
  | cons s C' ih =>
    intro P a b hC hP heq
    have hs : ValidSeq s := hC s (by simp)
    rw [List.flatten_cons, List.append_assoc] at heq
    rcases List.append_eq_append_iff.mp heq with ⟨a', hsa, _⟩ | ⟨c', hac, hcb⟩
    · -- `a` is a front part of the single sequence `s`
      obtain ⟨hd, cs, rfl, hlen, hcont⟩ := hs
      rcases a with _ | ⟨x, a₂⟩
      · exact sliceable_nil
      · rw [List.cons_append] at hsa
        injection hsa with hhd hcs
        subst hhd
        rcases a' with _ | ⟨y, a''⟩
        · rw [List.append_nil] at hcs
          refine ⟨[hd :: a₂], [], ?_, Or.inl rfl, by simp⟩
          intro t ht
          simp only [List.mem_singleton] at ht
          subst ht
          refine ⟨hd, a₂, rfl, ?_, ?_⟩
          · rw [hcs] at hlen
            exact hlen
          · intro c hc
            exact hcont c (by rw [hcs]; exact hc)
        · refine ⟨[], hd :: a₂, by simp, Or.inr ⟨hd, a₂, rfl, ?_, ?_⟩, by simp⟩
          · have : cs.length = a₂.length + (a''.length + 1) := by rw [hcs]; simp
            omega
          · intro c hc
            exact hcont c (by rw [hcs]; exact List.mem_append_left _ hc)
    · -- `a` extends past `s`: recurse on the rest
      obtain ⟨C'', P'', hC'', hP'', hc'⟩ :=
        ih P c' b (fun t ht => hC t (by simp [ht])) hP hcb.symm
      refine ⟨s :: C'', P'', ?_, hP'', ?_⟩
      · intro t ht
        rcases List.mem_cons.mp ht with rfl | ht'
        · exact hC t (by simp)
        · exact hC'' t ht'
      · rw [hac, hc', List.flatten_cons, List.append_assoc]

/-- `UTF8Sliceable` is closed under taking the front part of a split. -/
theorem sliceable_take (a b : List ℕ) (h : UTF8Sliceable (a ++ b)) : UTF8Sliceable a := by
  obtain ⟨C, P, hC, hP, heq⟩ := h
  exact sliceable_take_aux C P a b hC hP heq

/-- Removing one complete sequence from the front preserves
`UTF8Sliceable` (the stream decomposition is forced byte by byte). -/
theorem sliceable_cancel_one (s x : List ℕ) (hs : ValidSeq s)
    (h : UTF8Sliceable (s ++ x)) : UTF8Sliceable x := by
  obtain ⟨b, cs, rfl, hlen, hcont⟩ := hs
  obtain ⟨C, P, hC, hP, heq⟩ := h
  rcases C with _ | ⟨s', C'⟩
  · rw [List.flatten_nil, List.nil_append] at heq
    rcases hP with rfl | ⟨hd, cs', rfl, hlt, hcont'⟩
    · simp at heq
    · have hhd : b = hd := by
        rw [List.cons_append] at heq
        exact (List.cons.injEq _ _ _ _ ▸ heq).1
      have hlenP : cs.length + x.length = cs'.length := by
        have := congrArg List.length heq
        simp at this
        omega
      have hsl : seqLen hd = cs.length + 1 := hhd ▸ hlen
      omega
  · have hs' : ValidSeq s' := hC s' (by simp)
    obtain ⟨b', cs'', rfl, hlen', hcont''⟩ := hs'
    rw [List.flatten_cons, List.append_assoc] at heq
    have hb : b = b' := by
      rw [List.cons_append, List.cons_append] at heq
      exact (List.cons.injEq _ _ _ _ ▸ heq).1
    have hlens : (b :: cs).length = (b' :: cs'').length := by
      subst hb
      simp
      omega
    obtain ⟨_, hx⟩ := List.append_inj heq hlens
    exact ⟨C', P, fun t ht => hC t (by simp [ht]), hP, hx⟩

/-- Removing any number of complete sequences from the front preserves
`UTF8Sliceable`. -/
theorem sliceable_cancel (C : List (List ℕ)) (x : List ℕ)
    (hC : ∀ s ∈ C, ValidSeq s) (h : UTF8Sliceable (C.flatten ++ x)) :
    UTF8Sliceable x := by
  induction C with
  | nil => simpa using h
  | cons s C' ih =>
    apply ih (fun t ht => hC t (by simp [ht]))
    apply sliceable_cancel_one s _ (hC s (by simp))
    rw [List.flatten_cons, List.append_assoc] at h
    exact h

/-- On sliceable data, `emitChunk` emits exactly the complete sequences
and carries exactly the partial tail. -/
theorem emitChunk_eq (pending c : List ℕ) (C : List (List ℕ)) (P : List ℕ)
    (hC : ∀ s ∈ C, ValidSeq s) (hP : P = [] ∨ PartialSeq P)
    (heq : pending ++ c = C.flatten ++ P) :
    emitChunk pending c = (C.flatten, P) := by
  have hfind : findLastValidUTF8 (C.flatten ++ P) = C.flatten.length := by
    rcases hP with rfl | hp
    · rw [List.append_nil]
      exact findLast_on_chunked _ ⟨C, hC, rfl⟩
    · exact findLast_on_partial _ _ hp
  simp only [emitChunk]
  rw [heq, hfind, List.take_left, List.drop_left]

/-- Every chunk the read loop emits from a sliceable stream is a
concatenation of complete sequences. -/
theorem processReads_chunked (reads : List (List ℕ)) :
    ∀ (pending : List ℕ), UTF8Sliceable (pending ++ reads.flatten) →
      ∀ e ∈ (processReads pending reads).1, UTF8Chunked e := by
  induction reads with
  | nil =>
    intro pending _ e he
    simp [processReads] at he
  | cons c rest ih =>
    intro pending h e he
    rw [List.flatten_cons, ← List.append_assoc] at h
    have hsl := sliceable_take _ _ h
    obtain ⟨C, P, hC, hP, heq⟩ := hsl
    have hemit := emitChunk_eq pending c C P hC hP heq
    have hrest : UTF8Sliceable (P ++ rest.flatten) := by
      apply sliceable_cancel C _ hC
      rw [← List.append_assoc, ← heq]
      exact h
    simp only [processReads] at he
    rw [hemit] at he
    rcases List.mem_cons.mp he with rfl | he'
    · exact ⟨C, hC, rfl⟩
    · exact ih P hrest e he'

/-- A concatenation of complete sequences never ends in an incomplete
multi-byte suffix (in the claim's sense). -/
theorem chunked_no_incomplete (e : List ℕ) (h : UTF8Chunked e) :
    endsIncompleteSpec e = false := by
  obtain ⟨C, hC, rfl⟩ := h
  induction C using List.reverseRecOn with
  | nil => decide
  | append_singleton C₀ s _ =>
    have hs : ValidSeq s := hC s (by simp)
    obtain ⟨b, cs, rfl, hlen, hcont⟩ := hs
    have hfl : (C₀ ++ [b :: cs]).flatten = C₀.flatten ++ (b :: cs) := by simp
    rw [hfl]
    have hsl4 := seqLen_le_four b
    rcases cs with _ | ⟨c1, _ | ⟨c2, _ | ⟨c3, _ | ⟨c4, rest⟩⟩⟩⟩
    · have hb : b &&& 0x80 = 0 := seqLen_one_ascii (by simpa using hlen)
      simp [endsIncompleteSpec, List.reverse_append,
        decide_eq_false (ascii_not_start hb), decide_eq_false (ascii_not_cont hb)]
    · have hm : b &&& 0xE0 = 0xC0 := seqLen_two_mask (by simpa using hlen)
      have hc1 : c1 &&& 0xC0 = 0x80 := hcont c1 (by simp)
      simp [endsIncompleteSpec, List.reverse_append, expLen_of_mask2 hm,
        decide_eq_false (cont_not_start hc1),
        decide_eq_false (start_not_cont (start_of_mask2 hm))]
    · have hm : b &&& 0xF0 = 0xE0 := seqLen_three_mask (by simpa using hlen)
      have hc1 : c1 &&& 0xC0 = 0x80 := hcont c1 (by simp)
      have hc2 : c2 &&& 0xC0 = 0x80 := hcont c2 (by simp)
      simp [endsIncompleteSpec, List.reverse_append, expLen_of_mask3 hm,
        decide_eq_false (cont_not_start hc1), decide_eq_false (cont_not_start hc2)]
    · have hc1 : c1 &&& 0xC0 = 0x80 := hcont c1 (by simp)
      have hc2 : c2 &&& 0xC0 = 0x80 := hcont c2 (by simp)
      have hc3 : c3 &&& 0xC0 = 0x80 := hcont c3 (by simp)
      simp [endsIncompleteSpec, List.reverse_append,
        decide_eq_false (cont_not_start hc1), decide_eq_false (cont_not_start hc2),
        decide_eq_false (cont_not_start hc3)]
    · exfalso
      simp [List.length_cons] at hlen
      omega

/-- A single scrollback append never leaves more than the cap. -/
theorem appendScrollback_within (old chunk : List ℕ) :
    (appendScrollback old chunk).length ≤ scrollbackLimit := by
  simp only [appendScrollback]
  split_ifs with h
  · simp only [List.length_drop]
    omega
  · omega

/-- Folding appends over any chunk list from a within-cap start stays
within the cap. -/
theorem foldl_appendScrollback_le (chunks : List (List ℕ)) :
    ∀ acc : List ℕ, acc.length ≤ scrollbackLimit →
      (chunks.foldl appendScrollback acc).length ≤ scrollbackLimit := by
  induction chunks with
  | nil =>
    intro acc h
    simpa using h
  | cons c cs ih =>
    intro acc _
    rw [List.foldl_cons]
    exact ih _ (appendScrollback_within acc c)

/-- When the I/O-behavior verdict clears the 0.70 bar, it is the
high-output-rate branch, so its status is *executing*. -/
theorem analyzeIOBehavior_high (t : StateTracker) (st : Status) (now : ℤ)
    (h : 700 ≤ (analyzeIOBehavior t st now).2) :
    (analyzeIOBehavior t st now).1 = Status.executing := by
  simp only [analyzeIOBehavior] at h ⊢
  split_ifs at h ⊢
  · rfl
  all_goals simp at h

/-- C4: every append by the read loop leaves the scrollback equal to the
last `min(|old| + |chunk|, 2^20)` bytes of the old contents followed by
the chunk; the buffer therefore never exceeds 1 MiB (also along any
sequence of appends from empty); and appending one byte to a buffer at
exactly 1 MiB drops exactly one byte from the front. -/
theorem appendScrollback_bound (old chunk : List ℕ) (b c : ℕ)
    (chunks : List (List ℕ)) :
    appendScrollback old chunk
      = lastBytes (min (old.length + chunk.length) scrollbackLimit) (old ++ chunk) ∧
    (appendScrollback old chunk).length ≤ scrollbackLimit ∧
    (chunks.foldl appendScrollback []).length ≤ scrollbackLimit ∧
    appendScrollback (List.replicate scrollbackLimit b) [c]
      = List.replicate (scrollbackLimit - 1) b ++ [c] := by
  refine ⟨?_, appendScrollback_within old chunk,
    foldl_appendScrollback_le chunks [] (by simp), ?_⟩
  · have hlen : (old ++ chunk).length = old.length + chunk.length := by simp
    simp only [appendScrollback, lastBytes]
    split_ifs with h
    · have hmin : min (old.length + chunk.length) scrollbackLimit = scrollbackLimit := by
        omega
      rw [hmin]
    · rw [show (old ++ chunk).length -
          min (old.length + chunk.length) scrollbackLimit = 0 from by omega,
        List.drop_zero]
  · have hone : 1 ≤ scrollbackLimit := by norm_num [scrollbackLimit]
    have hlen : (List.replicate scrollbackLimit b ++ [c]).length = scrollbackLimit + 1 := by
      simp
    have hgt : (List.replicate scrollbackLimit b ++ [c]).length > scrollbackLimit := by
      omega
    simp only [appendScrollback]
    rw [if_pos hgt]
    rw [show (List.replicate scrollbackLimit b ++ [c]).length - scrollbackLimit = 1 from by
      omega]
    rw [List.drop_append_eq_append_drop]
    rw [show 1 - (List.replicate scrollbackLimit b).length = 0 from by
      simp only [List.length_replicate]
      omega, List.drop_zero]
    simp [List.drop_replicate]

/-- C6: the 1 Hz timeout monitor's four rules.  A pane in *thinking* with
no output for more than 60 s moves to (*waiting_input*, 0.60); a pane in
*executing* whose state has held for more than 5 min moves to
(*waiting_input*, 0.50); a pane in *shell* or *waiting_input* with
`claudeActive` set, whose last input (which exists: nonzero) is after its
last output and lies strictly between 500 ms and 5 s ago, moves to
(*thinking*, 0.70); and panes in *stopped*, *error*, or *idle* are never
touched. -/
theorem checkTimeouts_rules (p : PaneSt) (now : ℤ) :
    (p.status = Status.thinking → now - p.tracker.lastOutputTime > thinkingTimeout →
      checkTimeouts p now =
        ⟨Status.waitingInput,
         { p.tracker with confidence := 600, stateChangedAt := now }⟩) ∧
    (p.status = Status.executing → now - p.tracker.stateChangedAt > executingTimeout →
      checkTimeouts p now =
        ⟨Status.waitingInput,
         { p.tracker with confidence := 500, stateChangedAt := now }⟩) ∧
    ((p.status = Status.shell ∨ p.status = Status.waitingInput) →
      p.tracker.claudeActive = true →
      p.tracker.lastInputTime ≠ 0 →
      p.tracker.lastOutputTime < p.tracker.lastInputTime →
      now - p.tracker.lastInputTime > inputToThinkingDelay →
      now - p.tracker.lastInputTime < 5000000000 →
      checkTimeouts p now =
        ⟨Status.thinking, { p.tracker with confidence := 700, stateChangedAt := now }⟩) ∧
    ((p.status = Status.stopped ∨ p.status = Status.error ∨ p.status = Status.idle) →
      checkTimeouts p now = p) := by
  refine ⟨?_, ?_, ?_, ?_⟩
  · intro h1 h2
    simp [checkTimeouts, h1, h2]
  · intro h1 h2
    simp [checkTimeouts, h1, h2]
  · intro h1 hact hnz hio h5 h6
    rcases h1 with h1 | h1 <;> simp [checkTimeouts, h1, hact, hnz, hio, h5, h6]
  · intro h1
    rcases h1 with h1 | h1 | h1 <;> simp [checkTimeouts, h1]

/-- Witness for `checkTimeouts_rules`: a thinking pane with last output at
instant 0, examined 61 s later, moves to (*waiting_input*, 0.60). -/
theorem checkTimeouts_rules_witness :
    checkTimeouts staleThinkingPane 61000000000 =
      ⟨Status.waitingInput,
       { staleThinkingPane.tracker with
           confidence := 600, stateChangedAt := 61000000000 }⟩ :=
  (checkTimeouts_rules staleThinkingPane 61000000000).1 rfl (by decide)

/-- C7: saving a session and loading the directory yields a session with
the same id, name, directory, color, position, metadata, parent id,
worktree path, branch, robot customization and hex coordinates, except
that the status is *idle*; and a `client-state` entry is never parsed as
session metadata during load. -/
theorem save_load_roundtrip (s : GoSession) (h : s.id ≠ "client-state") :
    loadSessionFiles [(s.id, some (saveSessionInfo s))]
      = [sessionFromInfo (saveSessionInfo s)] ∧
    (sessionFromInfo (saveSessionInfo s)).id = s.id ∧
    (sessionFromInfo (saveSessionInfo s)).name = s.name ∧
    (sessionFromInfo (saveSessionInfo s)).directory = s.directory ∧
    (sessionFromInfo (saveSessionInfo s)).color = s.color ∧
    (sessionFromInfo (saveSessionInfo s)).position = s.position ∧
    (sessionFromInfo (saveSessionInfo s)).metadata = s.metadata ∧
    (sessionFromInfo (saveSessionInfo s)).parentID = s.parentID ∧
    (sessionFromInfo (saveSessionInfo s)).worktreePath = s.worktreePath ∧
    (sessionFromInfo (saveSessionInfo s)).branch = s.branch ∧
    (sessionFromInfo (saveSessionInfo s)).robotModel = s.robotModel ∧
    (sessionFromInfo (saveSessionInfo s)).robotColor = s.robotColor ∧
    (sessionFromInfo (saveSessionInfo s)).robotAccessory = s.robotAccessory ∧
    (sessionFromInfo (saveSessionInfo s)).hexQ = s.hexQ ∧
    (sessionFromInfo (saveSessionInfo s)).hexR = s.hexR ∧
    (sessionFromInfo (saveSessionInfo s)).status = Status.idle ∧
    ∀ (pc : Option SessionInfo) (rest : List (String × Option SessionInfo)),
      loadSessionFiles (("client-state", pc) :: rest) = loadSessionFiles rest := by
  refine ⟨?_, rfl, rfl, rfl, rfl, rfl, rfl, rfl, rfl, rfl, rfl, rfl, rfl, rfl, rfl, rfl, ?_⟩
  · simp [loadSessionFiles, h]
  · intro pc rest
    simp [loadSessionFiles]

/-- Witness for `save_load_roundtrip` at a fully populated session. -/
theorem save_load_roundtrip_witness :
    loadSessionFiles [("abc12345", some (saveSessionInfo sampleSession))]
      = [sessionFromInfo (saveSessionInfo sampleSession)] ∧
    (sessionFromInfo (saveSessionInfo sampleSession)).status = Status.idle := by
  obtain ⟨h1, _, _, _, _, _, _, _, _, _, _, _, _, _, _, hst, _⟩ :=
    save_load_roundtrip sampleSession (by decide)
  exact ⟨h1, hst⟩

/-- C8 counterexample: two stop requests produce two *stopped* broadcasts,
not exactly one — `handleStop` broadcasts unconditionally on every
request. -/
theorem handleStop_twice_counterexample :
    (handleStop (handleStop runningWsState)).broadcasts
      = [Status.stopped, Status.stopped] ∧
    ((handleStop (handleStop runningWsState)).broadcasts).length ≠ 1 := by
  decide

/-- C8 amended: `stop` on the pane/session state is idempotent — the
first call kills the child, closes the PTY, signals `done`, and sets the
status to *stopped*, and a repeated call leaves that state unchanged —
but every stop *request* broadcasts one *stopped* status, so a stop
request followed by another yields two broadcasts (with no further state
change). -/
theorem stop_idempotent_amended (p : PaneRun) (st : WsState) :
    paneStop (paneStop p) = paneStop p ∧
    (paneStop p).status = Status.stopped ∧
    (paneStop p).ptyOpen = false ∧
    (paneStop p).childAlive = false ∧
    (paneStop p).doneClosed = true ∧
    sessStop (sessStop st.sess) = sessStop st.sess ∧
    (handleStop st).broadcasts = st.broadcasts ++ [Status.stopped] ∧
    (handleStop (handleStop st)).sess = (handleStop st).sess ∧
    (handleStop (handleStop st)).broadcasts
      = st.broadcasts ++ [Status.stopped, Status.stopped] := by
  have hcomp : paneStop ∘ paneStop = paneStop := funext fun _ => rfl
  have hsess : ∀ s : SessRun, sessStop (sessStop s) = sessStop s := by
    intro s
    simp [sessStop, List.map_map, hcomp]
  refine ⟨rfl, rfl, rfl, rfl, rfl, hsess st.sess, rfl, hsess st.sess, ?_⟩
  simp [handleStop]

/-- C9: saving an empty scrollback writes nothing and returns success, so
an existing `<id>.scrollback` file keeps its prior contents; a later save
with a non-empty buffer overwrites it. -/
theorem saveScrollback_empty_noop (fs : FS) (id : String) (b : ℕ) (bs : List ℕ) :
    saveScrollback fs id [] = (fs, true) ∧
    (saveScrollback fs id []).1 (id ++ ".scrollback") = fs (id ++ ".scrollback") ∧
    (saveScrollback fs id (b :: bs)).2 = true ∧
    (saveScrollback fs id (b :: bs)).1 (id ++ ".scrollback") = some (b :: bs) := by
  refine ⟨rfl, rfl, ?_, ?_⟩
  · simp [saveScrollback]
  · simp [saveScrollback, fsWrite]

/-- C10: on a session with no panes, `Write` returns 0 bytes and no error
(success) and `Resize` returns no error, while a pane with no open PTY
returns the `closed` error from both. -/
theorem sessionWrite_no_panes (s : SessPort) (h : s.panes = []) (data : List ℕ)
    (q : PanePort) (hq : q.ptyOpen = false) :
    getMainPane s = none ∧
    sessionWrite s data = (0, none) ∧
    sessionResize s = none ∧
    paneWrite q data = (0, some GoErr.closed) ∧
    paneResize q = some GoErr.closed := by
  have hm : getMainPane s = none := by
    rcases hl : s.layoutPaneID with _ | pid
    · simp [getMainPane, hl, h]
    · simp only [getMainPane, hl, h]
      split_ifs <;> simp [lookupPane]
  refine ⟨hm, ?_, ?_, ?_, ?_⟩
  · simp [sessionWrite, hm]
  · simp [sessionResize, hm]
  · simp [paneWrite, hq]
  · simp [paneResize, hq]

/-- Witness for `sessionWrite_no_panes`: the pane-less session (layout
root still naming `"main"`) accepts a write as success. -/
theorem sessionWrite_no_panes_witness :
    sessionWrite paneLessSession [1, 2, 3] = (0, none) ∧
    paneWrite ⟨false⟩ [1, 2, 3] = (0, some GoErr.closed) := by
  have h := sessionWrite_no_panes paneLessSession rfl [1, 2, 3] ⟨false⟩ rfl
  exact ⟨h.2.1, h.2.2.2.1⟩

/-- C1: `analyzeState` returns exactly the first applicable verdict of
the cascade — spinner in the last 5 lines (0.95 thinking); else tool
pattern in the last 5 lines (0.90 executing); else the context verdict at
confidence ≥ 0.80; else the I/O verdict at ≥ 0.70; else, when both are
≥ 0.50 and agree, their mean; else the context verdict at ≥ 0.50; else
the current status at 0.40.  (Confidences in thousandths.) -/
theorem analyzeState_cascade (p : PaneSt) (now : ℤ) :
    ((getRecentLines p.tracker 5).any (fun l => l.hasSpinner) = true →
      (analyzeState p now).1 = (Status.thinking, 950)) ∧
    ((getRecentLines p.tracker 5).any (fun l => l.hasSpinner) = false →
      (getRecentLines p.tracker 5).any (fun l => l.hasToolPattern) = true →
      (analyzeState p now).1 = (Status.executing, 900)) ∧
    ((getRecentLines p.tracker 5).any (fun l => l.hasSpinner) = false →
      (getRecentLines p.tracker 5).any (fun l => l.hasToolPattern) = false →
      ((800 ≤ (ctxVerdict p).2 → (analyzeState p now).1 = ctxVerdict p) ∧
       ((ctxVerdict p).2 < 800 → 700 ≤ (ioVerdict p now).2 →
         (analyzeState p now).1 = ioVerdict p now) ∧
       ((ctxVerdict p).2 < 800 → (ioVerdict p now).2 < 700 →
         500 ≤ (ctxVerdict p).2 → 500 ≤ (ioVerdict p now).2 →
         (ctxVerdict p).1 = (ioVerdict p now).1 →
         (analyzeState p now).1
           = ((ctxVerdict p).1, ((ctxVerdict p).2 + (ioVerdict p now).2) / 2)) ∧
       ((ctxVerdict p).2 < 800 → (ioVerdict p now).2 < 700 →
         500 ≤ (ctxVerdict p).2 →
         ((ioVerdict p now).2 < 500 ∨ (ctxVerdict p).1 ≠ (ioVerdict p now).1) →
         (analyzeState p now).1 = ctxVerdict p) ∧
       ((ctxVerdict p).2 < 800 → (ioVerdict p now).2 < 700 →
         (ctxVerdict p).2 < 500 →
         (analyzeState p now).1 = (p.status, 400)))) := by
  refine ⟨?_, ?_, ?_⟩
  · intro hs
    simp [analyzeState, hs]
  · intro hs ht
    simp [analyzeState, hs, ht]
  · intro hs ht
    have hred : analyzeState p now =
        (if 800 ≤ (analyzeContext p).1.2 then ((analyzeContext p).1, (analyzeContext p).2)
         else if 700 ≤ (analyzeIOBehavior (analyzeContext p).2 p.status now).2 then
           (analyzeIOBehavior (analyzeContext p).2 p.status now, (analyzeContext p).2)
         else if 500 ≤ (analyzeContext p).1.2 ∧
             500 ≤ (analyzeIOBehavior (analyzeContext p).2 p.status now).2 ∧
             (analyzeContext p).1.1
               = (analyzeIOBehavior (analyzeContext p).2 p.status now).1 then
           (((analyzeContext p).1.1,
             ((analyzeContext p).1.2
               + (analyzeIOBehavior (analyzeContext p).2 p.status now).2) / 2),
            (analyzeContext p).2)
         else if 500 ≤ (analyzeContext p).1.2 then
           ((analyzeContext p).1, (analyzeContext p).2)
         else ((p.status, 400), (analyzeContext p).2)) := by
      simp [analyzeState, hs, ht]
    simp only [ctxVerdict, ctxTracker, ioVerdict]
    refine ⟨?_, ?_, ?_, ?_, ?_⟩
    · intro h8
      rw [hred, if_pos h8]
    · intro h8 h7
      rw [hred, if_neg (by omega), if_pos h7]
    · intro h8 h7 hc hi heq
      rw [hred, if_neg (by omega), if_neg (by omega), if_pos ⟨hc, hi, heq⟩]
    · intro h8 h7 hc hd
      have hnot : ¬(500 ≤ (analyzeContext p).1.2 ∧
          500 ≤ (analyzeIOBehavior (analyzeContext p).2 p.status now).2 ∧
          (analyzeContext p).1.1
            = (analyzeIOBehavior (analyzeContext p).2 p.status now).1) := by
        rintro ⟨-, hb, hcc⟩
        rcases hd with h | h
        · omega
        · exact h hcc
      rw [hred, if_neg (by omega), if_neg (by omega), if_neg hnot, if_pos hc]
    · intro h8 h7 hc
      rw [hred, if_neg (by omega), if_neg (by omega),
        if_neg (by rintro ⟨ha, -, -⟩; omega), if_neg (by omega)]

/-- Witness for `analyzeState_cascade`: a pane whose most recent line has
a spinner classifies as (*thinking*, 0.95). -/
theorem analyzeState_cascade_witness :
    (analyzeState spinnerPane 0).1 = (Status.thinking, 950) :=
  (analyzeState_cascade spinnerPane 0).1 (by decide)

/-- C2 counterexample: a pane with `claudeActive` set, no spinner and no
tool pattern, whose last line `"abc>"` looks like an agent input prompt
but carries no agent-UI marker: the context verdict is
(*waiting_input*, 0.70), not the 0.85 the claim requires for a
prompt-shaped last line. -/
theorem analyzeContext_prompt_counterexample :
    promptNoUIPane.tracker.claudeActive = true ∧
    (∀ l ∈ promptNoUIPane.tracker.lines,
      l.hasSpinner = false ∧ l.hasToolPattern = false) ∧
    looksLikeClaudePrompt
      ((promptNoUIPane.tracker.lines.getLast?.getD emptyLineEntry).content) = true ∧
    (ctxVerdict promptNoUIPane).2 = 700 ∧ (700 : ℕ) ≠ 850 := by
  decide

/-- C2 amended: with `claudeActive` set and no spinner or tool pattern in
the window, the context verdict never returns *shell*: it is
(*waiting_input*, 0.85) when the window contains at least one agent-UI
line *and* the last buffered line looks like an agent input prompt,
(*waiting_input*, 0.70) otherwise on a nonempty window, and
(*waiting_input*, 0.50) on an empty window; moreover `analyzeState` never
returns *shell* for such a pane (in particular a line ending in `"$ "`
cannot transition it to *shell*). -/
theorem analyzeContext_agentActive_amended (p : PaneSt)
    (hact : p.tracker.claudeActive = true)
    (hns : ∀ l ∈ p.tracker.lines, l.hasSpinner = false)
    (hnt : ∀ l ∈ p.tracker.lines, l.hasToolPattern = false) :
    (ctxVerdict p).1 = Status.waitingInput ∧
    (ctxVerdict p).2 =
      (if p.tracker.lines = [] then 500
       else if 0 < (p.tracker.lines.filter (fun l => l.hasClaudeUI)).length ∧
           looksLikeClaudePrompt
             ((p.tracker.lines.getLast?.getD emptyLineEntry).content) = true then 850
       else 700) ∧
    ∀ now, (analyzeState p now).1.1 ≠ Status.shell := by
  have hfs : p.tracker.lines.filter (fun l => l.hasSpinner) = [] :=
    List.filter_eq_nil_iff.mpr (fun a ha => by simp [hns a ha])
  have hft : p.tracker.lines.filter (fun l => l.hasToolPattern) = [] :=
    List.filter_eq_nil_iff.mpr (fun a ha => by simp [hnt a ha])
  have hmain : (ctxVerdict p).1 = Status.waitingInput ∧
      (ctxVerdict p).2 =
        (if p.tracker.lines = [] then 500
         else if 0 < (p.tracker.lines.filter (fun l => l.hasClaudeUI)).length ∧
             looksLikeClaudePrompt
               ((p.tracker.lines.getLast?.getD emptyLineEntry).content) = true then 850
         else 700) := by
    by_cases hl : p.tracker.lines = []
    · constructor <;> simp [ctxVerdict, analyzeContext, hl, hact]
    · simp only [ctxVerdict, analyzeContext]
      rw [if_neg hl, if_neg (by simp [hfs]), if_neg (by simp [hft]), if_pos hact]
      by_cases hcond : 0 < (p.tracker.lines.filter (fun l => l.hasClaudeUI)).length ∧
          looksLikeClaudePrompt
            ((p.tracker.lines.getLast?.getD emptyLineEntry).content) = true
      · rw [if_pos hcond]
        exact ⟨rfl, by rw [if_neg hl, if_pos hcond]⟩
      · rw [if_neg hcond]
        exact ⟨rfl, by rw [if_neg hl, if_neg hcond]⟩
  have hv1 : (analyzeContext p).1.1 = Status.waitingInput := hmain.1
  have hge : 500 ≤ (analyzeContext p).1.2 := by
    have h2 := hmain.2
    simp only [ctxVerdict] at h2
    rw [h2]
    split_ifs <;> omega
  refine ⟨hmain.1, hmain.2, ?_⟩
  intro now
  simp only [analyzeState]
  split_ifs with h1 h2 h3 h4 h5
  · simp
  · simp
  · simp [hv1]
  · have hio := analyzeIOBehavior_high (analyzeContext p).2 p.status now h4
    simp [hio]
  · simp [hv1]
  · simp [hv1]

/-- Witness for `analyzeContext_agentActive_amended`: an agent-active pane
whose last line is `"~$ "` (shell-prompt-shaped) still gets verdict
*waiting_input* and cannot be classified as *shell*. -/
theorem analyzeContext_agentActive_witness :
    (ctxVerdict dollarPane).1 = Status.waitingInput ∧
    (lineEntryOf [0x7E, 0x24, 0x20] 0).hasShellPrompt = true ∧
    (analyzeState dollarPane 0).1.1 ≠ Status.shell := by
  have h := analyzeContext_agentActive_amended dollarPane (by decide) (by decide) (by decide)
  exact ⟨h.1, by decide, h.2.2 0⟩

/-- C3 counterexample: on a *waiting_input* pane with stored confidence
0.90, the per-output classification computes (*shell*, 0.50); the status
is (correctly) not changed, but the confidence is *not* updated either —
it stays 0.90 — contradicting the claim's "only the tracker's confidence
is updated". -/
theorem detectStep_confidence_counterexample :
    lowConfPane.status = Status.waitingInput ∧
    lowConfPane.tracker.confidence = 900 ∧
    (analyzeState lowConfPane 0).1 = (Status.shell, 500) ∧
    (detectStep lowConfPane 0 [] 0).status = Status.waitingInput ∧
    (detectStep lowConfPane 0 [] 0).tracker.confidence = 900 ∧
    (900 : ℕ) ≠ 500 := by
  decide

/-- C3 amended: the status changes only if the computed status differs
and the confidence clears 0.60 or the transition is strong (and then it
becomes the computed status, with `stateChangedAt` stamped and the
confidence stored); when the computed status equals the current one only
the confidence is updated; when it differs but fails the gate, the
tracker is left entirely unchanged (confidence included); and the strong
transitions are exactly *shell* → {*thinking*, *executing*,
*waiting_input*} and {*thinking*, *executing*} → *waiting_input*. -/
theorem applyVerdict_gate (old : Status) (t : StateTracker) (ns : Status)
    (conf : ℕ) (now : ℤ) :
    ((applyVerdict old t ns conf now).status ≠ old →
      ns ≠ old ∧ (600 ≤ conf ∨ isStrongTransition old ns = true) ∧
        (applyVerdict old t ns conf now).status = ns) ∧
    (ns ≠ old → (600 ≤ conf ∨ isStrongTransition old ns = true) →
      applyVerdict old t ns conf now
        = ⟨ns, { t with stateChangedAt := now, confidence := conf }⟩) ∧
    (ns = old →
      applyVerdict old t ns conf now = ⟨old, { t with confidence := conf }⟩) ∧
    (ns ≠ old → ¬(600 ≤ conf ∨ isStrongTransition old ns = true) →
      applyVerdict old t ns conf now = ⟨old, t⟩) ∧
    (isStrongTransition old ns = true ↔
      ((old = Status.shell ∧
          (ns = Status.thinking ∨ ns = Status.executing ∨ ns = Status.waitingInput)) ∨
       ((old = Status.thinking ∨ old = Status.executing) ∧ ns = Status.waitingInput))) := by
  refine ⟨?_, ?_, ?_, ?_, ?_⟩
  · intro hch
    unfold applyVerdict at hch ⊢
    split_ifs at hch ⊢ with h1 h2
    · exact ⟨h1, h2, rfl⟩
    · exact absurd rfl hch
    · exact absurd rfl hch
  · intro hne hgate
    unfold applyVerdict
    rw [if_pos hne, if_pos hgate]
  · intro he
    unfold applyVerdict
    rw [if_neg (by simp [he])]
  · intro hne hng
    unfold applyVerdict
    rw [if_pos hne, if_neg hng]
  · cases old <;> cases ns <;> decide

/-- Witness for `applyVerdict_gate`: the strong transition *shell* →
*thinking* at confidence 0.95 applies the new status and stamps the
tracker. -/
theorem applyVerdict_gate_witness :
    applyVerdict Status.shell (newStateTracker 0) Status.thinking 950 5
      = ⟨Status.thinking,
         { newStateTracker 0 with stateChangedAt := 5, confidence := 950 }⟩ :=
  (applyVerdict_gate Status.shell (newStateTracker 0) Status.thinking 950 5).2.1
    (by decide) (Or.inl (by omega))

/-- C5 counterexample: a single read of `E0 80 E0 80` (malformed UTF-8)
makes the read loop emit the chunk `E0 80`, which ends with an incomplete
multi-byte suffix in the claim's own sense (`0xE0` announces three bytes;
only one continuation is present) — the boundary guarantee does not hold
for arbitrary byte streams. -/
theorem readLoop_emit_counterexample :
    (processReads [] [[0xE0, 0x80, 0xE0, 0x80]]).1 = [[0xE0, 0x80]] ∧
    endsIncompleteSpec [0xE0, 0x80] = true := by
  decide

/-- C5 amended: when the cumulative PTY byte stream is valid UTF-8 sliced
arbitrarily into reads (complete sequences plus at most one trailing
partial sequence), every chunk the read loop emits is a concatenation of
complete UTF-8 sequences and never ends with an incomplete multi-byte
suffix; an incomplete suffix is held back and prepended to the next
chunk — in particular a read of the single byte `0xC3` emits nothing, and
the byte is emitted together with its continuation `0xA9` when that
arrives in the next read. -/
theorem readLoop_utf8_amended (reads : List (List ℕ))
    (h : UTF8Sliceable reads.flatten) :
    (∀ e ∈ (processReads [] reads).1,
      UTF8Chunked e ∧ endsIncompleteSpec e = false) ∧
    processReads [] [[0xC3]] = ([[]], [0xC3]) ∧
    (processReads [] [[0xC3], [0xA9]]).1 = [[], [0xC3, 0xA9]] := by
  refine ⟨?_, by decide, by decide⟩
  intro e he
  have hc : UTF8Chunked e := processReads_chunked reads [] (by simpa using h) e he
  exact ⟨hc, chunked_no_incomplete e hc⟩

/-- Witness for `readLoop_utf8_amended`: the two-read stream
`[C3], [A9]` (one 2-byte character) is sliceable, and the chunk finally
emitted is complete and does not end mid-sequence. -/
theorem readLoop_utf8_witness :
    UTF8Chunked [0xC3, 0xA9] ∧ endsIncompleteSpec [0xC3, 0xA9] = false := by
  have hslice : UTF8Sliceable ([[0xC3], [0xA9]] : List (List ℕ)).flatten := by
    refine ⟨[[0xC3, 0xA9]], [], ?_, Or.inl rfl, by decide⟩
    intro s hs
    simp only [List.mem_singleton] at hs
    subst hs
    exact ⟨0xC3, [0xA9], rfl, by decide, by decide⟩
  exact (readLoop_utf8_amended [[0xC3], [0xA9]] hslice).1 [0xC3, 0xA9] (by decide)

end Claudex
